import Mathlib

/-!
# PBXScribe credential resolution and lifecycle: a shallow embedding

This file embeds the credential-resolution core of the PBXScribe API
(`src/api/plugins/auth.js`, `src/api/repositories/credentialRepository.js`,
`src/api/utils/jwt.js`, `src/api/utils/password.js`, `src/api/utils/apiKey.js`,
the auth/api-key route handlers, and `src/api/app.js` startup configuration)
as executable Lean definitions, and proves properties of the embedding.

Conventions of the embedding:
* database state is an explicit `DB` value threaded through operations;
* timestamps are `Nat` milliseconds; SQL `NOW()` is an explicit `now`
  argument;
* row ids are `Nat` (store-assigned from `DB.nextId`);
* external libraries (`jsonwebtoken`, `bcryptjs`, `crypto`) are either
  modelled from the specification (marked in doc comments) or abstracted
  as function parameters of the flow being embedded;
* JavaScript truthiness on optional strings (`label || null`) and absent
  headers is made explicit.
-/

namespace PBXScribe

/-- A row of the `users` table (fields the core reads:
`id, email, name, status`). `status ∈ {active, inactive, suspended}`,
default `'active'` (migration 001). -/
structure User where
  id : Nat
  email : String
  name : String
  status : String
  deriving Repr, DecidableEq

/-- A stored row of the `user_credentials` table (migration 002).
`credential_hash` is the one-way hash; there is no plaintext field. -/
structure Credential where
  id : Nat
  user_id : Nat
  credential_type : String
  credential_hash : String
  label : Option String
  is_active : Bool
  last_used_at : Option Nat
  expires_at : Option Nat
  created_at : Nat
  updated_at : Nat
  deriving Repr, DecidableEq

/-- The projection of a credential returned by `createCredential`'s
`RETURNING` list and by `findCredentialsByUserId`'s `SELECT` list:
`id, user_id, credential_type, label, is_active, last_used_at, expires_at,
created_at` — the hash column is not selected. -/
structure CredentialRow where
  id : Nat
  user_id : Nat
  credential_type : String
  label : Option String
  is_active : Bool
  last_used_at : Option Nat
  expires_at : Option Nat
  created_at : Nat
  deriving Repr, DecidableEq

/-- Database state: the two tables plus the store-assigned id sequence. -/
structure DB where
  users : List User
  credentials : List Credential
  nextId : Nat
  deriving Repr, DecidableEq

/-- JavaScript `x || null` on an optional string: `''` is falsy. -/
def jsOrNull : Option String → Option String
  | none => none
  | some s => if s = "" then none else some s

/-- Project a stored credential to the hash-free `SELECT` row. -/
def projCred (c : Credential) : CredentialRow :=
  { id := c.id, user_id := c.user_id, credential_type := c.credential_type,
    label := c.label, is_active := c.is_active, last_used_at := c.last_used_at,
    expires_at := c.expires_at, created_at := c.created_at }

/-- Arguments of `createCredential` (`credentialRepository.js`). -/
structure CreateCredentialArgs where
  userId : Nat
  credentialType : String
  credentialHash : String
  label : Option String
  expiresAt : Option Nat
  deriving Repr, DecidableEq

/-- Embeds `createCredential` (`credentialRepository.js` lines 9–18): INSERT a row
with `is_active` defaulting to `true` (migration 002) and `label || null`,
`expiresAt || null`; RETURNING the hash-free projection. -/
def createCredential (db : DB) (now : Nat) (a : CreateCredentialArgs) :
    CredentialRow × DB :=
  let stored : Credential :=
    { id := db.nextId, user_id := a.userId, credential_type := a.credentialType,
      credential_hash := a.credentialHash, label := jsOrNull a.label,
      is_active := true, last_used_at := none, expires_at := a.expiresAt,
      created_at := now, updated_at := now }
  (projCred stored,
   { db with credentials := db.credentials ++ [stored], nextId := db.nextId + 1 })

/-- Insert into a list sorted by `created_at` descending (embedding of
`ORDER BY created_at DESC`; ties keep relative order). -/
def insertByCreatedDesc (r : CredentialRow) : List CredentialRow → List CredentialRow
  | [] => [r]
  | x :: xs =>
      if x.created_at < r.created_at then r :: x :: xs
      else x :: insertByCreatedDesc r xs

/-- Sort rows by `created_at` descending. -/
def sortByCreatedDesc (l : List CredentialRow) : List CredentialRow :=
  l.foldr insertByCreatedDesc []

/-- Embeds `findCredentialsByUserId` (`credentialRepository.js` lines 27–44):
SELECT the hash-free projection of the user's credentials, optionally
filtered by `credential_type`, `ORDER BY created_at DESC`. -/
def findCredentialsByUserId (db : DB) (userId : Nat)
    (credentialType : Option String) : List CredentialRow :=
  sortByCreatedDesc
    ((db.credentials.filter (fun c =>
        c.user_id == userId &&
        (match credentialType with
         | none => true
         | some t => c.credential_type == t))).map projCred)

/-- The `WHERE` clause of `findActiveCredentialByHash` joined with its
matching user row (`credentialRepository.js` lines 54–74):
hash and type match, `is_active = true`, owner `status = 'active'`,
`expires_at IS NULL OR expires_at > NOW()`. -/
def credEligible (now : Nat) (hash ctype : String) (c : Credential) (u : User) :
    Bool :=
  c.credential_hash == hash && c.credential_type == ctype &&
  c.is_active && u.status == "active" &&
  (match c.expires_at with
   | none => true
   | some e => now < e)

/-- The user projection selected by `findActiveCredentialByHash`
(`u.id, u.email, u.name, u.status`). -/
def projUser (u : User) : User :=
  { id := u.id, email := u.email, name := u.name, status := u.status }

/-- Embeds `findActiveCredentialByHash` (`credentialRepository.js` lines 54–98):
join `user_credentials` with `users` on `u.id = uc.user_id` under the
eligibility conditions; return the first matching `{credential, user}`
pair (hash-free credential projection) or `null`. -/
def findActiveCredentialByHash (db : DB) (now : Nat) (hash ctype : String) :
    Option (CredentialRow × User) :=
  (db.credentials.filterMap (fun c =>
    match db.users.find? (fun u => u.id == c.user_id) with
    | none => none
    | some u =>
        if credEligible now hash ctype c u then some (projCred c, projUser u)
        else none)).head?

/-- Embeds `deactivateCredential` (`credentialRepository.js` lines 106–114):
UPDATE `is_active = false, updated_at = NOW()` WHERE `id` matches; returns
`rowCount > 0`. -/
def deactivateCredential (db : DB) (now : Nat) (credentialId : Nat) :
    Bool × DB :=
  (db.credentials.any (fun c => c.id == credentialId),
   { db with credentials := db.credentials.map (fun c =>
       if c.id == credentialId then
         { c with is_active := false, updated_at := now }
       else c) })

/-- Embeds `updateLastUsed` (`credentialRepository.js` lines 122–129):
UPDATE `last_used_at = NOW(), updated_at = NOW()` WHERE `id` matches. -/
def updateLastUsed (db : DB) (now : Nat) (credentialId : Nat) : DB :=
  { db with credentials := db.credentials.map (fun c =>
      if c.id == credentialId then
        { c with last_used_at := some now, updated_at := now }
      else c) }

/-- Embeds `findUserById` (`userRepository.js` lines 46–54):
`SELECT id, email, name, status, ... FROM users WHERE id = $1`, returning
the first matching row or `null` (`result.rows[0] || null`). -/
def findUserById (db : DB) (id : Nat) : Option User :=
  db.users.find? (fun u => u.id == id)

/-- Embeds `findUserByEmail` (`userRepository.js` lines 62–70):
`SELECT id, email, name, status, ... FROM users WHERE email = $1`,
returning the first matching row or `null` (`result.rows[0] || null`;
the `users_email_unique` constraint makes at most one row match). -/
def findUserByEmail (db : DB) (email : String) : Option User :=
  db.users.find? (fun u => u.email == email)

/-- Embeds `createUser` (`userRepository.js` lines 30–38):
`INSERT INTO users (email, name) VALUES ($1, $2) RETURNING id, email,
name, status, ...`. A duplicate email violates the `users_email_unique`
constraint (migration 001), surfacing as the thrown unique-violation
`23505` — the `.error` case here; otherwise the row is inserted with a
store-assigned id and `status` defaulting to `'active'` (migration
001). -/
def createUser (db : DB) (email name : String) : Except Unit (User × DB) :=
  if db.users.any (fun u => u.email == email) then .error ()
  else
    let u : User := { id := db.nextId, email := email, name := name,
                      status := "active" }
    .ok (u, { db with users := db.users ++ [u], nextId := db.nextId + 1 })

/-- The claim set a token carries (`jwt.js`: `{sub, email, name}`). -/
structure TokenClaims where
  sub : Nat
  email : String
  name : String
  deriving Repr, DecidableEq

/-- Modelled from the spec: the value space of the external `jsonwebtoken`
library (§4.3 Token Codec). A token is either a well-formed signed
claim-set with the secret it was signed under and its issued-at/expiry
times, or an arbitrary string that is not a well-formed token. -/
inductive Jwt where
  | garbage (s : String)
  | signed (claims : TokenClaims) (secret : String) (iat exp : Nat)
  deriving Repr, DecidableEq

/-- From `jwt.js`: `DEFAULT_EXPIRY = '24h'`, in milliseconds. -/
def DEFAULT_EXPIRY_MS : Nat := 24 * 60 * 60 * 1000

/-- Embeds `generateToken` (`jwt.js` lines 11–20): read `JWT_SECRET` from the
environment at call time; throw `'JWT_SECRET environment variable is not
set'` when unset; otherwise sign `{sub, email, name}` with 24h expiry.
The signing itself is modelled from the spec (external library). -/
def generateToken (jwtSecret : Option String) (now : Nat) (c : TokenClaims) :
    Except String Jwt :=
  match jwtSecret with
  | none => .error "JWT_SECRET environment variable is not set"
  | some s => .ok (.signed c s now (now + DEFAULT_EXPIRY_MS))

/-- Embeds `verifyToken` (`jwt.js` lines 28–33): read `JWT_SECRET` at call time;
throw when unset; otherwise validate signature and expiry (verification
semantics modelled from the spec: bad signature, malformed and expired all
fail). -/
def verifyToken (jwtSecret : Option String) (now : Nat) (t : Jwt) :
    Except String TokenClaims :=
  match jwtSecret with
  | none => .error "JWT_SECRET environment variable is not set"
  | some s =>
    match t with
    | .garbage _ => .error "invalid token"
    | .signed c s2 _ exp =>
        if s2 = s ∧ now < exp then .ok c else .error "invalid or expired token"

/-- JavaScript `String.prototype.indexOf` for a single character:
index of the first occurrence, `none` for `-1`. -/
def jsIndexOfAux (p : Char → Bool) : List Char → Option Nat
  | [] => none
  | c :: cs => if p c then some 0 else (jsIndexOfAux p cs).map (· + 1)

/-- Index of the first space in a string (`authHeader.indexOf(' ')`). -/
def indexOfSpace (s : String) : Option Nat :=
  jsIndexOfAux (· == ' ') s.data

/-- From `auth.js` line 31: the scheme part of the authorization header —
the whole header when it contains no space, else the prefix before the
first space. -/
def schemeOf (h : String) : String :=
  match indexOfSpace h with
  | none => h
  | some i => ⟨h.data.take i⟩

/-- From `auth.js` line 32: the value part of the authorization header —
`''` when the header contains no space, else the suffix after the first
space. -/
def valueOf (h : String) : String :=
  match indexOfSpace h with
  | none => ""
  | some i => ⟨h.data.drop (i + 1)⟩

/-- Outcome of the `authenticate` preHandler: either the request gains a
`user`, or a reply with the given status code and message is sent. -/
inductive AuthResult where
  | ok (user : User)
  | err (statusCode : Nat) (message : String)
  deriving Repr, DecidableEq

/-- Environment of the `authenticate` preHandler: the external token
verification (`verifyToken` plus the `try/catch`, so failures are `none`),
the API-key digest (`hashApiKey`, SHA-256), and the clock. -/
structure AuthEnv where
  verifyTok : String → Option TokenClaims
  hashKey : String → String
  now : Nat

/-- Embeds `authenticate` (`auth.js` lines 21–75): missing (or falsy empty)
header → 401 `Authorization header required`; split scheme/value at the
first space; `Bearer` → verify token, re-fetch the user by `sub` and
require `status = 'active'`; `ApiKey` → digest the value and look up an
eligible credential+owner, recording last-used on success; any other
scheme → 401 unsupported. Returns the result and the (possibly
last-used-touched) database. -/
def authenticate (db : DB) (env : AuthEnv) (authHeader : Option String) :
    AuthResult × DB :=
  match authHeader with
  | none => (.err 401 "Authorization header required", db)
  | some h =>
    if h = "" then (.err 401 "Authorization header required", db)
    else
      let scheme := schemeOf h
      let value := valueOf h
      if scheme = "Bearer" then
        match env.verifyTok value with
        | none => (.err 401 "Invalid or expired token", db)
        | some decoded =>
          match findUserById db decoded.sub with
          | none => (.err 401 "User not found or inactive", db)
          | some user =>
            if user.status ≠ "active" then
              (.err 401 "User not found or inactive", db)
            else (.ok user, db)
      else if scheme = "ApiKey" then
        let hash := env.hashKey value
        match findActiveCredentialByHash db env.now hash "api_key" with
        | none => (.err 401 "Invalid or revoked API key", db)
        | some (credential, user) =>
          (.ok user, updateLastUsed db env.now credential.id)
      else
        (.err 401 "Unsupported auth scheme. Use Bearer or ApiKey", db)

/-- Result of `checkPasswordStrength` (`password.js`). -/
structure PasswordStrength where
  valid : Bool
  failures : List String
  deriving Repr, DecidableEq

/-- The strength rule set `RULES` (`password.js` lines 6–12): minimum
length 8, at least one ASCII uppercase, lowercase, digit, and
non-alphanumeric character. -/
def RULES : List ((String → Bool) × String) :=
  [ (fun p => decide (8 ≤ p.length), "at least 8 characters"),
    (fun p => p.data.any (fun c => 'A' ≤ c && c ≤ 'Z'),
      "at least one uppercase letter"),
    (fun p => p.data.any (fun c => 'a' ≤ c && c ≤ 'z'),
      "at least one lowercase letter"),
    (fun p => p.data.any (fun c => '0' ≤ c && c ≤ '9'),
      "at least one number"),
    (fun p => p.data.any (fun c =>
        !(('A' ≤ c && c ≤ 'Z') || ('a' ≤ c && c ≤ 'z') ||
          ('0' ≤ c && c ≤ '9'))),
      "at least one special character") ]

/-- Embeds `checkPasswordStrength` (`password.js` lines 19–22): collect the
messages of the failed rules; valid iff none failed. -/
def checkPasswordStrength (plaintext : String) : PasswordStrength :=
  let failures := (RULES.filter (fun r => !(r.1 plaintext))).map (·.2)
  { valid := failures.length == 0, failures := failures }

/-- From `password.js`: `COST_FACTOR = 12`. -/
def COST_FACTOR : Nat := 12

/-- Modelled from the spec: a bcrypt hash value as produced by the external
`bcryptjs` library (§4.1): it records the cost and salt it was produced
under and the digest of the plaintext. The digest of the ideal one-way
function is represented by the preimage itself, making the idealized
digest injective. -/
structure BcryptHash where
  cost : Nat
  salt : Nat
  digest : String
  deriving Repr, DecidableEq

/-- Modelled from the spec: the bcrypt key-derivation core — digest of a
plaintext under a given cost and salt. -/
def bcryptDigest (cost salt : Nat) (plaintext : String) : BcryptHash :=
  { cost := cost, salt := salt, digest := plaintext }

/-- Embeds `hashPassword` (`password.js` lines 29–31): `bcrypt.hash(plaintext,
COST_FACTOR)` — the library draws a fresh salt, here an explicit
argument. -/
def hashPassword (salt : Nat) (plaintext : String) : BcryptHash :=
  bcryptDigest COST_FACTOR salt plaintext

/-- Embeds `verifyPassword` (`password.js` lines 39–41): `bcrypt.compare` —
re-derive the digest of the candidate under the hash's recorded cost and
salt and compare; never string equality of plaintexts against hashes. -/
def verifyPassword (plaintext : String) (hash : BcryptHash) : Bool :=
  bcryptDigest hash.cost hash.salt plaintext == hash

/-- From `apiKey.js`: the key prefix constant `'pbx_'`. -/
def PREFIX : String := "pbx_"

/-- Embeds `generateApiKey` (`apiKey.js` lines 11–14): prefix plus the base64url
encoding of 48 random bytes; the randomness is an explicit argument. -/
def generateApiKey (random : String) : String :=
  PREFIX ++ random

/-- Environment of the registration/login/key flows: clock, `JWT_SECRET`,
the external bcrypt hash (salt hidden inside) and compare, the minted
key's random payload, and the SHA-256 hex digest (`hashApiKey`). -/
structure FlowEnv where
  now : Nat
  jwtSecret : Option String
  hashPw : String → String
  verifyPw : String → String → Bool
  keyRandom : String
  hashKey : String → String

/-- Outcome of a register handler: schema rejection (400), duplicate-email
conflict (409), password-too-weak (422, only the `checkPasswordStrength`
variant), created (201, token present iff one was issued), or an error
thrown out of the handler (500). -/
inductive RegisterResult where
  | schemaError
  | conflict
  | weak (message : String)
  | created (user : User) (token : Option Jwt)
  | serverError (msg : String)
  deriving Repr, DecidableEq

/-- Embeds `POST /auth/register` (`routes/auth.js`, optional-password variant,
handler lines 66–97): schema admits an optional password of minimum
length 8; `createUser` (23505 → 409 conflict); if a password was supplied,
hash it, create the `password` credential, and issue a token; no
strength-policy check is performed in this variant. -/
def registerV1 (db : DB) (env : FlowEnv) (email name : String)
    (password : Option String) : RegisterResult × DB :=
  if (match password with
      | some p => decide (p.length < 8)
      | none => false) then (.schemaError, db)
  else
    match createUser db email name with
    | .error _ => (.conflict, db)
    | .ok (user, db1) =>
      match password with
      | some p =>
          let hash := env.hashPw p
          let (_, db2) := createCredential db1 env.now
            { userId := user.id, credentialType := "password",
              credentialHash := hash, label := some "password",
              expiresAt := none }
          match generateToken env.jwtSecret env.now
              { sub := user.id, email := user.email, name := user.name } with
          | .error e => (.serverError e, db2)
          | .ok tok => (.created user (some tok), db2)
      | none => (.created user none, db1)

/-- Embeds `POST /auth/register` (`routes/auth.js`, required-password variant
with `checkPasswordStrength`, handler lines 387–419): schema requires the
password (minimum length 8); the strength policy runs first and a failure
returns 422 `Password too weak: <failed rules>` before any user or
credential is created; then `createUser` (conflict), hash, credential,
token. -/
def registerV2 (db : DB) (env : FlowEnv) (email name password : String) :
    RegisterResult × DB :=
  if password.length < 8 then (.schemaError, db)
  else
    let strength := checkPasswordStrength password
    if !strength.valid then
      (.weak ("Password too weak: " ++ String.intercalate ", " strength.failures),
       db)
    else
      match createUser db email name with
      | .error _ => (.conflict, db)
      | .ok (user, db1) =>
          let hash := env.hashPw password
          let (_, db2) := createCredential db1 env.now
            { userId := user.id, credentialType := "password",
              credentialHash := hash, label := some "password",
              expiresAt := none }
          match generateToken env.jwtSecret env.now
              { sub := user.id, email := user.email, name := user.name } with
          | .error e => (.serverError e, db2)
          | .ok tok => (.created user (some tok), db2)

/-- Outcome of a login handler: the generic 401, a token+user success, or
an error thrown out of the handler. -/
inductive LoginResult where
  | err (statusCode : Nat) (message : String)
  | success (token : Jwt) (user : User)
  | serverError (msg : String)
  deriving Repr, DecidableEq

/-- The credential-matching loop of `POST /auth/login` (lines 160–170):
for each active password credential row in order, re-fetch its
`credential_hash` by id (`SELECT credential_hash FROM user_credentials
WHERE id = $1`) and verify the supplied plaintext, stopping at the first
match. -/
def loginFindMatch (db : DB) (verifyPw : String → String → Bool)
    (password : String) : List CredentialRow → Option CredentialRow
  | [] => none
  | cred :: rest =>
    match db.credentials.find? (fun c => c.id == cred.id) with
    | none => loginFindMatch db verifyPw password rest
    | some c =>
        if verifyPw password c.credential_hash then some cred
        else loginFindMatch db verifyPw password rest

/-- Embeds `POST /auth/login` (`routes/auth.js`, handler lines 146–180): look up
the user by email; absent or not `active` → the one generic
`Invalid credentials` 401; filter the user's `password` credentials to the
active ones and run the matching loop; no match → the same generic error;
on match, touch last-used (fire-and-forget) and issue a token. -/
def login (db : DB) (env : FlowEnv) (email password : String) :
    LoginResult × DB :=
  let genericError : LoginResult := .err 401 "Invalid credentials"
  match findUserByEmail db email with
  | none => (genericError, db)
  | some user =>
    if user.status ≠ "active" then (genericError, db)
    else
      let credentials := findCredentialsByUserId db user.id (some "password")
      let active := credentials.filter (·.is_active)
      match loginFindMatch db env.verifyPw password active with
      | none => (genericError, db)
      | some matched =>
        let db1 := updateLastUsed db env.now matched.id
        match generateToken env.jwtSecret env.now
            { sub := user.id, email := user.email, name := user.name } with
        | .error e => (.serverError e, db1)
        | .ok tok => (.success tok user, db1)

/-- The 201 body of an issue-key handler: the only place the plaintext key
appears. -/
structure ApiKeyCreated where
  id : Nat
  key : String
  label : Option String
  expires_at : Option Nat
  created_at : Nat
  deriving Repr, DecidableEq

/-- Outcome of an issue-key handler. -/
inductive ApiKeyCreateResult where
  | schemaError
  | created (body : ApiKeyCreated)
  deriving Repr, DecidableEq

/-- Embeds `POST /auth/api-keys` (`routes/auth.js`, handler lines 234–261):
schema bounds `expires_in_days` to 1–365 when present; `if
(expires_in_days)` sets `expires_at = now + days`, absence leaves it
`null`; mint, digest, persist, and return the plaintext once. -/
def authApiKeysCreate (db : DB) (env : FlowEnv) (userId : Nat)
    (label : Option String) (expires_in_days : Option Nat) :
    ApiKeyCreateResult × DB :=
  if (match expires_in_days with
      | some d => decide (d < 1 ∨ 365 < d)
      | none => false) then (.schemaError, db)
  else
    let expiresAt : Option Nat :=
      match expires_in_days with
      | some d => some (env.now + d * 86400000)
      | none => none
    let plainKey := generateApiKey env.keyRandom
    let hash := env.hashKey plainKey
    let (credential, db1) := createCredential db env.now
      { userId := userId, credentialType := "api_key",
        credentialHash := hash, label := jsOrNull label,
        expiresAt := expiresAt }
    (.created { id := credential.id, key := plainKey,
                label := credential.label,
                expires_at := credential.expires_at,
                created_at := credential.created_at }, db1)

/-- Embeds `POST /api-keys` (`routes/apiKeys.js`, handler lines 78–102): the
schema declares `expires_in_days` with default 90 and the destructuring
defaults it to 90 as well, so `expires_at = now + days` is always set —
absence means a 90-day expiry, not no expiry. -/
def apiKeysCreate (db : DB) (env : FlowEnv) (userId : Nat)
    (label : Option String) (expires_in_days : Option Nat) :
    ApiKeyCreateResult × DB :=
  if (match expires_in_days with
      | some d => decide (d < 1 ∨ 365 < d)
      | none => false) then (.schemaError, db)
  else
    let d := expires_in_days.getD 90
    let expiresAt : Option Nat := some (env.now + d * 86400000)
    let plainKey := generateApiKey env.keyRandom
    let hash := env.hashKey plainKey
    let (credential, db1) := createCredential db env.now
      { userId := userId, credentialType := "api_key",
        credentialHash := hash, label := jsOrNull label,
        expiresAt := expiresAt }
    (.created { id := credential.id, key := plainKey,
                label := credential.label,
                expires_at := credential.expires_at,
                created_at := credential.created_at }, db1)

/-- Outcome of a revoke-key handler: 204 or 404 `API key not found`. -/
inductive RevokeResult where
  | noContent
  | notFound
  deriving Repr, DecidableEq

/-- Embeds `DELETE /auth/api-keys/:id` (`routes/auth.js`, handler lines
293–308): load the requesting principal's own `api_key` credentials;
if the target id is not among them reply 404 `API key not found`;
otherwise deactivate it and reply 204. -/
def revokeApiKeyAuthRoute (db : DB) (now : Nat) (userId targetId : Nat) :
    RevokeResult × DB :=
  let credentials := findCredentialsByUserId db userId (some "api_key")
  match credentials.find? (fun c => c.id == targetId) with
  | none => (.notFound, db)
  | some _ => (.noContent, (deactivateCredential db now targetId).2)

/-- Embeds `DELETE /api-keys/:id` (`routes/apiKeys.js`, handler lines 134–149):
same ownership check; the source compares `String(c.id) === String(id)`,
which on numeric ids coincides with id equality. -/
def revokeApiKeyRoute (db : DB) (now : Nat) (userId targetId : Nat) :
    RevokeResult × DB :=
  let credentials := findCredentialsByUserId db userId (some "api_key")
  match credentials.find? (fun c => c.id == targetId) with
  | none => (.notFound, db)
  | some _ => (.noContent, (deactivateCredential db now targetId).2)

/-- Process environment read by `app.js` and `jwt.js`. -/
structure AppEnv where
  jwtSecret : Option String
  nodeEnv : Option String
  logLevel : Option String

/-- The configuration `init` derives from the environment. -/
structure AppConfig where
  logLevel : String
  basePath : String
  trustProxy : Bool
  deriving Repr, DecidableEq

/-- Embeds `init` (`app.js` lines 16–55, configuration handling): derive the log
level (`LOG_LEVEL || 'info'`) and base path (`NODE_ENV ? '/'+NODE_ENV :
''`), register plugins and routes, and return the app. No part of `init`
reads or checks `JWT_SECRET`, so startup succeeds for every environment,
including one with the signing secret unset. -/
def init (env : AppEnv) : Except String AppConfig :=
  .ok { logLevel :=
          (match env.logLevel with
           | some l => if l = "" then "info" else l
           | none => "info"),
        basePath :=
          (match env.nodeEnv with
           | some e => if e = "" then "" else "/" ++ e
           | none => ""),
        trustProxy := true }

/-! ## Helper lemmas -/

lemma head?_isSome_iff {α : Type} (l : List α) :
    l.head?.isSome = true ↔ l ≠ [] := by
  cases l <;> simp

lemma mem_of_head?_eq_some {α : Type} {l : List α} {x : α}
    (h : l.head? = some x) : x ∈ l := by
  cases l with
  | nil => simp at h
  | cons a t => simp at h; simp [h]

/-- The eligibility test of `findActiveCredentialByHash`, as a
proposition. -/
lemma credEligible_iff (now : Nat) (hash ctype : String) (c : Credential)
    (u : User) :
    credEligible now hash ctype c u = true ↔
      c.credential_hash = hash ∧ c.credential_type = ctype ∧
      c.is_active = true ∧ u.status = "active" ∧
      (c.expires_at = none ∨ ∃ e, c.expires_at = some e ∧ now < e) := by
  unfold credEligible
  cases he : c.expires_at with
  | none => simp [Bool.and_eq_true, beq_iff_eq]; tauto
  | some e => simp [Bool.and_eq_true, beq_iff_eq]; tauto

/-- Anatomy of a successful `findActiveCredentialByHash` lookup: it comes
from a stored credential joined with its owner, both passing the
eligibility test. -/
lemma findActiveByHash_some (db : DB) (now : Nat) (hash ctype : String)
    (cr : CredentialRow) (u : User)
    (h : findActiveCredentialByHash db now hash ctype = some (cr, u)) :
    ∃ c ∈ db.credentials, ∃ u0 ∈ db.users, u0.id = c.user_id ∧
      credEligible now hash ctype c u0 = true ∧
      cr = projCred c ∧ u = projUser u0 := by
  unfold findActiveCredentialByHash at h
  have hmem := mem_of_head?_eq_some h
  rw [List.mem_filterMap] at hmem
  obtain ⟨c, hc, hinner⟩ := hmem
  refine ⟨c, hc, ?_⟩
  cases hf : db.users.find? (fun u => u.id == c.user_id) with
  | none => rw [hf] at hinner; simp at hinner
  | some u0 =>
    rw [hf] at hinner
    dsimp only at hinner
    have hu0mem : u0 ∈ db.users := List.mem_of_find?_eq_some hf
    have hu0id : u0.id = c.user_id := by
      have := List.find?_some hf
      simpa using this
    by_cases hel : credEligible now hash ctype c u0 = true
    · rw [if_pos hel] at hinner
      refine ⟨u0, hu0mem, hu0id, hel, ?_, ?_⟩
      · exact (Prod.mk.injEq _ _ _ _ ▸ (Option.some.injEq _ _ ▸ hinner)).1.symm
      · exact (Prod.mk.injEq _ _ _ _ ▸ (Option.some.injEq _ _ ▸ hinner)).2.symm
    · rw [if_neg hel] at hinner; simp at hinner

/-- C2: `findActiveByHash` returns a pair iff an eligible stored
credential exists (active flag set, unexpired at `now`, owner active,
matching hash and kind); any returned row is itself active, unexpired,
and owned by an active principal — so a deactivated credential is never
returned even before its expiry, and an expired still-active credential
is never returned. -/
theorem findActiveByHash_eligibility (db : DB) (now : Nat)
    (hash ctype : String) (hU : (db.users.map (fun u => u.id)).Nodup) :
    ((findActiveCredentialByHash db now hash ctype).isSome = true ↔
      ∃ c ∈ db.credentials, ∃ u ∈ db.users, u.id = c.user_id ∧
        c.credential_hash = hash ∧ c.credential_type = ctype ∧
        c.is_active = true ∧ u.status = "active" ∧
        (c.expires_at = none ∨ ∃ e, c.expires_at = some e ∧ now < e)) ∧
    (∀ cr u, findActiveCredentialByHash db now hash ctype = some (cr, u) →
      cr.is_active = true ∧ u.status = "active" ∧
      (cr.expires_at = none ∨ ∃ e, cr.expires_at = some e ∧ now < e)) := by
  constructor
  · constructor
    · intro h
      rw [Option.isSome_iff_exists] at h
      obtain ⟨⟨cr, u⟩, h⟩ := h
      obtain ⟨c, hc, u0, hu0, hid, hel, _, _⟩ :=
        findActiveByHash_some db now hash ctype cr u h
      rw [credEligible_iff] at hel
      exact ⟨c, hc, u0, hu0, hid, hel⟩
    · rintro ⟨c, hc, u, hu, hid, hel⟩
      rw [← credEligible_iff] at hel
      unfold findActiveCredentialByHash
      rw [head?_isSome_iff]
      intro hnil
      rw [List.filterMap_eq_nil_iff] at hnil
      have := hnil c hc
      have hfind : (db.users.find? (fun v => v.id == c.user_id)).isSome = true := by
        rw [List.find?_isSome]
        exact ⟨u, hu, by simpa using hid⟩
      rw [Option.isSome_iff_exists] at hfind
      obtain ⟨u1, hu1⟩ := hfind
      rw [hu1] at this
      dsimp only at this
      have hu1mem : u1 ∈ db.users := List.mem_of_find?_eq_some hu1
      have hu1id : u1.id = c.user_id := by
        have := List.find?_some hu1
        simpa using this
      have : ¬ credEligible now hash ctype c u1 = true := by
        intro hel1
        rw [if_pos hel1] at this
        simp at this
      have hu1u : u1 = u := by
        apply List.inj_on_of_nodup_map hU hu1mem hu
        rw [hu1id, hid]
      rw [hu1u] at this
      exact this hel
  · intro cr u h
    obtain ⟨c, _, u0, _, _, hel, hcr, hu⟩ :=
      findActiveByHash_some db now hash ctype cr u h
    rw [credEligible_iff] at hel
    subst hcr; subst hu
    exact ⟨hel.2.2.1, hel.2.2.2.1, hel.2.2.2.2⟩

/-- Witness for `findActiveByHash_eligibility` at a concrete store. -/
theorem findActiveByHash_eligibility_witness :
    ((findActiveCredentialByHash
        { users := [{ id := 1, email := "a@x.com", name := "A",
                      status := "active" }],
          credentials := [{ id := 2, user_id := 1,
                            credential_type := "api_key",
                            credential_hash := "h", label := none,
                            is_active := true, last_used_at := none,
                            expires_at := none, created_at := 0,
                            updated_at := 0 }],
          nextId := 3 } 5 "h" "api_key").isSome = true) := by
  have h := findActiveByHash_eligibility
    { users := [{ id := 1, email := "a@x.com", name := "A",
                  status := "active" }],
      credentials := [{ id := 2, user_id := 1,
                        credential_type := "api_key",
                        credential_hash := "h", label := none,
                        is_active := true, last_used_at := none,
                        expires_at := none, created_at := 0,
                        updated_at := 0 }],
      nextId := 3 } 5 "h" "api_key" (by decide)
  refine h.1.mpr
    ⟨{ id := 2, user_id := 1, credential_type := "api_key",
       credential_hash := "h", label := none, is_active := true,
       last_used_at := none, expires_at := none, created_at := 0,
       updated_at := 0 }, by simp,
     { id := 1, email := "a@x.com", name := "A", status := "active" },
     by simp, rfl, rfl, rfl, rfl, rfl, Or.inl rfl⟩

lemma jsIndexOfAux_none (l : List Char) (h : ∀ c ∈ l, c ≠ ' ') :
    jsIndexOfAux (· == ' ') l = none := by
  induction l with
  | nil => rfl
  | cons a t ih =>
    unfold jsIndexOfAux
    rw [if_neg (by simpa using h a (by simp))]
    rw [ih (fun c hc => h c (by simp [hc]))]
    rfl

lemma jsIndexOfAux_append_space (l1 l2 : List Char)
    (h : ∀ c ∈ l1, c ≠ ' ') :
    jsIndexOfAux (· == ' ') (l1 ++ ' ' :: l2) = some l1.length := by
  induction l1 with
  | nil => simp [jsIndexOfAux]
  | cons a t ih =>
    rw [List.cons_append]
    unfold jsIndexOfAux
    rw [if_neg (by simpa using h a (by simp))]
    rw [ih (fun c hc => h c (by simp [hc]))]
    rfl

/-- Splitting `"<Scheme> <value>"` at the first space recovers the scheme
and the value, for any space-free scheme. -/
lemma parse_header (sch v : String) (h : ∀ c ∈ sch.data, c ≠ ' ') :
    schemeOf (sch ++ " " ++ v) = sch ∧ valueOf (sch ++ " " ++ v) = v ∧
    (sch ++ " " ++ v) ≠ "" := by
  have hdata : (sch ++ " " ++ v).data = sch.data ++ ' ' :: v.data := by
    show (sch.data ++ " ".data) ++ v.data = sch.data ++ ' ' :: v.data
    simp
  have hidx : indexOfSpace (sch ++ " " ++ v) = some sch.data.length := by
    unfold indexOfSpace
    rw [hdata]
    exact jsIndexOfAux_append_space sch.data v.data h
  refine ⟨?_, ?_, ?_⟩
  · unfold schemeOf
    rw [hidx, hdata]
    show String.mk ((sch.data ++ ' ' :: v.data).take sch.data.length) = sch
    rw [List.take_left]
  · unfold valueOf
    rw [hidx, hdata]
    show String.mk ((sch.data ++ ' ' :: v.data).drop (sch.data.length + 1)) = v
    have : sch.data ++ ' ' :: v.data = (sch.data ++ [' ']) ++ v.data := by simp
    rw [this]
    have hlen : sch.data.length + 1 = (sch.data ++ [' ']).length := by simp
    rw [hlen, List.drop_left]
  · intro he
    have := congrArg String.data he
    rw [hdata] at this
    simp at this

/-- The header `"Bearer " ++ v` parses into scheme `Bearer` and value
`v`. -/
lemma parse_bearer (v : String) :
    schemeOf ("Bearer " ++ v) = "Bearer" ∧ valueOf ("Bearer " ++ v) = v ∧
    ("Bearer " ++ v) ≠ "" := by
  have he : ("Bearer " ++ v) = ("Bearer" ++ " " ++ v) := by
    show String.mk ("Bearer ".data ++ v.data) =
      String.mk (("Bearer".data ++ " ".data) ++ v.data)
    rfl
  rw [he]
  exact parse_header "Bearer" v (by decide)

/-- C1: credential resolution only ever returns an `active` principal:
(i) for every header, a successful `authenticate` yields a user with
`status = 'active'` (the ApiKey lookup requires the owner to be active);
(ii) on the Bearer path, even a validly-verified token is rejected with
401 `User not found or inactive` when the re-fetched principal is absent
or not active. -/
theorem auth_only_active_principals (db : DB) (env : AuthEnv) :
    (∀ header u db', authenticate db env header = (.ok u, db') →
       u.status = "active") ∧
    (∀ v claims, env.verifyTok v = some claims →
       (∀ u, findUserById db claims.sub = some u → u.status ≠ "active") →
       authenticate db env (some ("Bearer " ++ v)) =
         (.err 401 "User not found or inactive", db)) := by
  constructor
  · intro header u db' h
    unfold authenticate at h
    match header with
    | none => simp at h
    | some hd =>
      dsimp only at h
      by_cases hemp : hd = ""
      · rw [if_pos hemp] at h; simp at h
      · rw [if_neg hemp] at h
        by_cases hb : schemeOf hd = "Bearer"
        · rw [if_pos hb] at h
          cases hv : env.verifyTok (valueOf hd) with
          | none => rw [hv] at h; simp at h
          | some decoded =>
            rw [hv] at h; dsimp only at h
            cases hu : findUserById db decoded.sub with
            | none => rw [hu] at h; simp at h
            | some user =>
              rw [hu] at h; dsimp only at h
              by_cases hs : user.status ≠ "active"
              · rw [if_pos hs] at h; simp at h
              · rw [if_neg hs] at h
                have : user = u := by simpa using congrArg Prod.fst h
                rw [← this]
                exact not_ne_iff.mp hs
        · rw [if_neg hb] at h
          by_cases ha : schemeOf hd = "ApiKey"
          · rw [if_pos ha] at h
            cases hr : findActiveCredentialByHash db env.now
                (env.hashKey (valueOf hd)) "api_key" with
            | none => rw [hr] at h; simp at h
            | some p =>
              rw [hr] at h
              obtain ⟨cr, u0⟩ := p
              dsimp only at h
              have hu : u0 = u := by simpa using congrArg Prod.fst h
              obtain ⟨c, _, u1, _, _, hel, _, hproj⟩ :=
                findActiveByHash_some db env.now
                  (env.hashKey (valueOf hd)) "api_key" cr u0 hr
              rw [credEligible_iff] at hel
              rw [← hu, hproj]
              exact hel.2.2.2.1
          · rw [if_neg ha] at h; simp at h
  · intro v claims hv hinactive
    obtain ⟨hsch, hval, hne⟩ := parse_bearer v
    unfold authenticate
    dsimp only
    rw [if_neg hne, hval, hsch, if_pos rfl, hv]
    dsimp only
    cases hu : findUserById db claims.sub with
    | none => rfl
    | some user =>
      dsimp only
      rw [if_pos (hinactive user hu)]

/-- Witness for `auth_only_active_principals` at a concrete request:
an authenticated ApiKey request yields an active user, and a valid token
for a suspended user is rejected. -/
theorem auth_only_active_principals_witness :
    (let db : DB :=
       { users := [{ id := 1, email := "a@x.com", name := "A",
                     status := "suspended" }],
         credentials := [], nextId := 2 };
     let env : AuthEnv :=
       { verifyTok := fun _ =>
           some { sub := 1, email := "a@x.com", name := "A" },
         hashKey := fun s => s, now := 0 };
     authenticate db env (some ("Bearer " ++ "t")) =
       (.err 401 "User not found or inactive", db)) := by
  exact (auth_only_active_principals _ _).2 "t"
    { sub := 1, email := "a@x.com", name := "A" } rfl
    (by intro u hu; simp [findUserById] at hu; simp [← hu])

/-- C10: a non-empty authorization header with no space parses into the
whole value as scheme and `''` as credential value, so a bare `Bearer`
header flows through the Bearer branch (the empty token fails
verification → 401 invalid/expired token) and a bare `ApiKey` header
through the ApiKey branch (lookup of the digest of `''` misses → 401
invalid/revoked key) — never a crash, a missing-header error, or an
unsupported-scheme error. -/
theorem bare_scheme_header (db : DB) (env : AuthEnv) :
    (∀ h : String, h ≠ "" → (∀ c ∈ h.data, c ≠ ' ') →
       schemeOf h = h ∧ valueOf h = "") ∧
    (env.verifyTok "" = none →
       authenticate db env (some "Bearer") =
         (.err 401 "Invalid or expired token", db)) ∧
    (findActiveCredentialByHash db env.now (env.hashKey "") "api_key" = none →
       authenticate db env (some "ApiKey") =
         (.err 401 "Invalid or revoked API key", db)) := by
  refine ⟨?_, ?_, ?_⟩
  · intro h _ hns
    have hidx : indexOfSpace h = none := jsIndexOfAux_none h.data hns
    exact ⟨by unfold schemeOf; rw [hidx], by unfold valueOf; rw [hidx]⟩
  · intro hv
    unfold authenticate
    dsimp only
    rw [if_neg (by decide : ¬("Bearer" : String) = "")]
    rw [show schemeOf "Bearer" = "Bearer" from by decide]
    rw [if_pos rfl]
    rw [show valueOf "Bearer" = "" from by decide]
    rw [hv]
  · intro hr
    unfold authenticate
    dsimp only
    rw [if_neg (by decide : ¬("ApiKey" : String) = "")]
    rw [show schemeOf "ApiKey" = "ApiKey" from by decide]
    rw [if_neg (by decide : ¬("ApiKey" : String) = "Bearer")]
    rw [if_pos rfl]
    rw [show valueOf "ApiKey" = "" from by decide]
    rw [hr]

/-- Witness for `bare_scheme_header`: a bare `Bearer` header and a bare
`ApiKey` header against an empty store. -/
theorem bare_scheme_header_witness :
    (schemeOf "Bearer" = "Bearer" ∧ valueOf "Bearer" = "") ∧
    (authenticate { users := [], credentials := [], nextId := 1 }
       { verifyTok := fun _ => none, hashKey := fun s => s, now := 0 }
       (some "Bearer") =
     (.err 401 "Invalid or expired token",
      { users := [], credentials := [], nextId := 1 })) ∧
    (authenticate { users := [], credentials := [], nextId := 1 }
       { verifyTok := fun _ => none, hashKey := fun s => s, now := 0 }
       (some "ApiKey") =
     (.err 401 "Invalid or revoked API key",
      { users := [], credentials := [], nextId := 1 })) := by
  have h := bare_scheme_header
    { users := [], credentials := [], nextId := 1 }
    { verifyTok := fun _ => none, hashKey := fun s => s, now := 0 }
  exact ⟨h.1 "Bearer" (by decide) (by decide), h.2.1 rfl, h.2.2 rfl⟩

/-- C3: `init` (`app.js`) performs no check of `JWT_SECRET`, so process
startup succeeds for every environment — including one with the signing
secret unset — while `generateToken` and `verifyToken` (`jwt.js`) read
the secret per call and are the first to fail, inside request handling.
This contradicts the claim that absence of the secret is fatal at startup
and never first detected in a request handler. -/
theorem missing_secret_not_startup_fatal :
    (∀ env : AppEnv, ∃ cfg, init env = .ok cfg) ∧
    (init { jwtSecret := none, nodeEnv := none, logLevel := none } =
       .ok { logLevel := "info", basePath := "", trustProxy := true }) ∧
    (∀ now c, generateToken none now c =
       .error "JWT_SECRET environment variable is not set") ∧
    (∀ now t, verifyToken none now t =
       .error "JWT_SECRET environment variable is not set") := by
  exact ⟨fun env => ⟨_, rfl⟩, rfl, fun _ _ => rfl, fun _ _ => rfl⟩

/-- C4 counterexample: the optional-password `POST /auth/register`
handler performs no strength-policy check — `"aaaaaaaa"` fails the policy
(no uppercase, digit, or special character) yet registration succeeds
with a token and both the principal and the password credential are
persisted. -/
theorem registerV1_no_strength_check :
    (let env : FlowEnv :=
       { now := 0, jwtSecret := some "k",
         hashPw := fun p => p, verifyPw := fun _ _ => false,
         keyRandom := "r", hashKey := fun s => s };
     let r := registerV1 { users := [], credentials := [], nextId := 1 }
       env "a@x.com" "A" (some "aaaaaaaa");
     (checkPasswordStrength "aaaaaaaa").valid = false ∧
     r.2.credentials.map (fun c => c.credential_type) = ["password"] ∧
     r.2.users.map (fun u => u.email) = ["a@x.com"] ∧
     (match r.1 with
      | RegisterResult.created _ (some _) => true
      | _ => false) = true) := by
  decide

/-- C4 (amended): in the `checkPasswordStrength` register variant, a
password failing any strength rule yields the 422 `Password too weak`
response listing the failed rules, with the store untouched — no
principal created, no credential stored, nothing hashed. -/
theorem registerV2_strength_enforced (db : DB) (env : FlowEnv)
    (email name password : String)
    (hlen : 8 ≤ password.length)
    (hweak : (checkPasswordStrength password).valid = false) :
    registerV2 db env email name password =
      (.weak ("Password too weak: " ++
         String.intercalate ", " (checkPasswordStrength password).failures),
       db) := by
  unfold registerV2
  rw [if_neg (by omega)]
  simp [hweak]

/-- Witness for `registerV2_strength_enforced` at `"aaaaaaaa"`. -/
theorem registerV2_strength_enforced_witness :
    registerV2 { users := [], credentials := [], nextId := 1 }
      { now := 0, jwtSecret := some "k", hashPw := fun p => p,
        verifyPw := fun _ _ => false, keyRandom := "r",
        hashKey := fun s => s } "a@x.com" "A" "aaaaaaaa" =
    (.weak ("Password too weak: " ++ String.intercalate ", "
        (checkPasswordStrength "aaaaaaaa").failures),
     { users := [], credentials := [], nextId := 1 }) := by
  exact registerV2_strength_enforced
    { users := [], credentials := [], nextId := 1 }
    { now := 0, jwtSecret := some "k", hashPw := fun p => p,
      verifyPw := fun _ _ => false, keyRandom := "r",
      hashKey := fun s => s } "a@x.com" "A" "aaaaaaaa"
    (by decide) (by decide)

lemma jsOrNull_idem (l : Option String) : jsOrNull (jsOrNull l) = jsOrNull l := by
  cases l with
  | none => rfl
  | some s => by_cases h : s = "" <;> simp [jsOrNull, h]

/-- C5 counterexample: on `POST /api-keys` (`routes/apiKeys.js`), a
request with `expires_in_days` absent creates a key that expires 90 days
from creation (`0 + 90 * 86400000 ms`), not a key with `expires_at`
null. -/
theorem apiKeysCreate_default_expiry :
    (let env : FlowEnv :=
       { now := 0, jwtSecret := some "k",
         hashPw := fun p => p, verifyPw := fun _ _ => false,
         keyRandom := "r", hashKey := fun s => s };
     let r := apiKeysCreate { users := [], credentials := [], nextId := 1 }
       env 7 none none;
     r.2.credentials.map (fun c => c.expires_at) = [some 7776000000] ∧
     (match r.1 with
      | ApiKeyCreateResult.created body => body.expires_at
      | ApiKeyCreateResult.schemaError => none) = some 7776000000) := by
  decide

/-- C5 (amended): on `POST /auth/api-keys`, an absent `expires_in_days`
yields `expires_at` null (in the response and in the stored row) and a
present value `d ∈ [1, 365]` yields `expires_at = now + d` days; on
`POST /api-keys`, an absent `expires_in_days` defaults to 90 days, so the
created key always has an expiry. -/
theorem issue_key_expiry (db : DB) (env : FlowEnv) (userId : Nat)
    (label : Option String) :
    ((authApiKeysCreate db env userId label none).1 =
       .created { id := db.nextId, key := generateApiKey env.keyRandom,
                  label := jsOrNull label, expires_at := none,
                  created_at := env.now }) ∧
    ((authApiKeysCreate db env userId label none).2.credentials.map
        (fun c => c.expires_at) =
       db.credentials.map (fun c => c.expires_at) ++ [none]) ∧
    (∀ d, 1 ≤ d → d ≤ 365 →
       (authApiKeysCreate db env userId label (some d)).1 =
         .created { id := db.nextId, key := generateApiKey env.keyRandom,
                    label := jsOrNull label,
                    expires_at := some (env.now + d * 86400000),
                    created_at := env.now }) ∧
    ((apiKeysCreate db env userId label none).1 =
       .created { id := db.nextId, key := generateApiKey env.keyRandom,
                  label := jsOrNull label,
                  expires_at := some (env.now + 90 * 86400000),
                  created_at := env.now }) := by
  refine ⟨?_, ?_, ?_, ?_⟩
  · simp [authApiKeysCreate, createCredential, projCred, jsOrNull_idem]
  · simp [authApiKeysCreate, createCredential, projCred]
  · intro d h1 h365
    unfold authApiKeysCreate
    rw [if_neg (by simp; omega)]
    simp [createCredential, projCred, jsOrNull_idem]
  · simp [apiKeysCreate, createCredential, projCred, jsOrNull_idem]

/-- Witness for `issue_key_expiry` at `expires_in_days = 5`. -/
theorem issue_key_expiry_witness :
    (authApiKeysCreate { users := [], credentials := [], nextId := 1 }
       { now := 0, jwtSecret := some "k", hashPw := fun p => p,
         verifyPw := fun _ _ => false, keyRandom := "r",
         hashKey := fun s => s } 7 none (some 5)).1 =
      .created { id := 1, key := "pbx_r", label := none,
                 expires_at := some 432000000, created_at := 0 } := by
  exact (issue_key_expiry { users := [], credentials := [], nextId := 1 }
    { now := 0, jwtSecret := some "k", hashPw := fun p => p,
      verifyPw := fun _ _ => false, keyRandom := "r",
      hashKey := fun s => s } 7 none).2.2.1 5 (by decide) (by decide)

/-- C6: a revoke-key request (either handler) whose target id is not
among the requesting principal's own `api_key` credentials replies 404
`API key not found` — never 403, never success — and leaves the store
unchanged; a 204 deactivation happens only when the target id is owned
by the requester. -/
theorem revoke_requires_ownership (db : DB) (now : Nat)
    (userId targetId : Nat) :
    ((∀ c ∈ findCredentialsByUserId db userId (some "api_key"),
        c.id ≠ targetId) →
       revokeApiKeyAuthRoute db now userId targetId = (.notFound, db) ∧
       revokeApiKeyRoute db now userId targetId = (.notFound, db)) ∧
    (∀ db', revokeApiKeyAuthRoute db now userId targetId =
        (.noContent, db') →
       ∃ c ∈ findCredentialsByUserId db userId (some "api_key"),
         c.id = targetId) ∧
    (∀ db', revokeApiKeyRoute db now userId targetId = (.noContent, db') →
       ∃ c ∈ findCredentialsByUserId db userId (some "api_key"),
         c.id = targetId) := by
  refine ⟨?_, ?_, ?_⟩
  · intro h
    have hfind : (findCredentialsByUserId db userId
        (some "api_key")).find? (fun c => c.id == targetId) = none := by
      rw [List.find?_eq_none]
      intro c hc
      simpa using h c hc
    constructor
    · unfold revokeApiKeyAuthRoute; dsimp only; rw [hfind]
    · unfold revokeApiKeyRoute; dsimp only; rw [hfind]
  · intro db' h
    unfold revokeApiKeyAuthRoute at h
    dsimp only at h
    cases hf : (findCredentialsByUserId db userId
        (some "api_key")).find? (fun c => c.id == targetId) with
    | none => rw [hf] at h; simp at h
    | some c =>
      exact ⟨c, List.mem_of_find?_eq_some hf, by simpa using List.find?_some hf⟩
  · intro db' h
    unfold revokeApiKeyRoute at h
    dsimp only at h
    cases hf : (findCredentialsByUserId db userId
        (some "api_key")).find? (fun c => c.id == targetId) with
    | none => rw [hf] at h; simp at h
    | some c =>
      exact ⟨c, List.mem_of_find?_eq_some hf, by simpa using List.find?_some hf⟩

/-- Witness for `revoke_requires_ownership`: principal 2 revoking
principal 1's key id 5 gets 404 with the store unchanged. -/
theorem revoke_requires_ownership_witness :
    (let db : DB :=
       { users := [{ id := 1, email := "a@x.com", name := "A",
                     status := "active" },
                   { id := 2, email := "b@x.com", name := "B",
                     status := "active" }],
         credentials := [{ id := 5, user_id := 1,
                           credential_type := "api_key",
                           credential_hash := "h", label := none,
                           is_active := true, last_used_at := none,
                           expires_at := none, created_at := 0,
                           updated_at := 0 }],
         nextId := 6 };
     revokeApiKeyAuthRoute db 0 2 5 = (.notFound, db) ∧
     revokeApiKeyRoute db 0 2 5 = (.notFound, db)) := by
  exact (revoke_requires_ownership _ 0 2 5).1 (by decide)

/-- When no stored hash verifies against the supplied password, the login
matching loop finds nothing. -/
lemma loginFindMatch_eq_none (db : DB) (vp : String → String → Bool)
    (pw : String) (l : List CredentialRow)
    (h : ∀ c ∈ db.credentials, vp pw c.credential_hash = false) :
    loginFindMatch db vp pw l = none := by
  induction l with
  | nil => rfl
  | cons cred rest ih =>
    unfold loginFindMatch
    cases hf : db.credentials.find? (fun c => c.id == cred.id) with
    | none => exact ih
    | some c =>
      dsimp only
      rw [h c (List.mem_of_find?_eq_some hf)]
      simpa using ih

/-- C7: every failed login — nonexistent email, inactive or suspended
principal, or active principal with a password that verifies against no
stored hash — returns the identical generic result
`(401, "Invalid credentials")` with the store unchanged, so the response
does not reveal whether the email exists. -/
theorem login_generic_error (db : DB) (env : FlowEnv)
    (email password : String) :
    (findUserByEmail db email = none →
       login db env email password = (.err 401 "Invalid credentials", db)) ∧
    (∀ u, findUserByEmail db email = some u → u.status ≠ "active" →
       login db env email password = (.err 401 "Invalid credentials", db)) ∧
    (∀ u, findUserByEmail db email = some u → u.status = "active" →
       (∀ c ∈ db.credentials, env.verifyPw password c.credential_hash = false) →
       login db env email password = (.err 401 "Invalid credentials", db)) := by
  refine ⟨?_, ?_, ?_⟩
  · intro h
    unfold login
    rw [h]
  · intro u hu hs
    unfold login
    rw [hu]
    dsimp only
    rw [if_pos hs]
  · intro u hu hs hvp
    unfold login
    rw [hu]
    dsimp only
    rw [if_neg (by simp [hs])]
    rw [loginFindMatch_eq_none db env.verifyPw password _ hvp]

/-- Witness for `login_generic_error`: the same store answers a
nonexistent email, a suspended principal's email, and an active
principal's email with a wrong password with the same error value. -/
theorem login_generic_error_witness :
    (let db : DB :=
       { users := [{ id := 1, email := "a@x.com", name := "A",
                     status := "active" },
                   { id := 2, email := "s@x.com", name := "S",
                     status := "suspended" }],
         credentials := [{ id := 5, user_id := 1,
                           credential_type := "password",
                           credential_hash := "h", label := some "password",
                           is_active := true, last_used_at := none,
                           expires_at := none, created_at := 0,
                           updated_at := 0 }],
         nextId := 6 };
     let env : FlowEnv :=
       { now := 0, jwtSecret := some "k", hashPw := fun p => p,
         verifyPw := fun _ _ => false, keyRandom := "r",
         hashKey := fun s => s };
     login db env "ghost@x.com" "pw" = (.err 401 "Invalid credentials", db) ∧
     login db env "s@x.com" "pw" = (.err 401 "Invalid credentials", db) ∧
     login db env "a@x.com" "wrong" = (.err 401 "Invalid credentials", db)) := by
  refine ⟨?_, ?_, ?_⟩
  · exact (login_generic_error _ _ "ghost@x.com" "pw").1 (by decide)
  · exact (login_generic_error _ _ "s@x.com" "pw").2.1
      { id := 2, email := "s@x.com", name := "S", status := "suspended" }
      (by decide) (by decide)
  · exact (login_generic_error _ _ "a@x.com" "wrong").2.2
      { id := 1, email := "a@x.com", name := "A", status := "active" }
      (by decide) (by decide) (by decide)

/-- Filtering and projecting commute with an element rewrite that the
filter predicate and the projection are both blind to. -/
lemma filter_map_comm_of_invariant {α : Type} (g : α → α) (p : α → Bool)
    (π : α → CredentialRow)
    (hp : ∀ x, p (g x) = p x) (hπ : ∀ x, π (g x) = π x) (l : List α) :
    ((l.map g).filter p).map π = (l.filter p).map π := by
  induction l with
  | nil => rfl
  | cons c t ih =>
    rw [List.map_cons, List.filter_cons, List.filter_cons, hp]
    cases hc : p c with
    | false => rw [if_neg (by simp [hc]), if_neg (by simp [hc])]; exact ih
    | true =>
      rw [if_pos (by simp [hc]), if_pos (by simp [hc]),
        List.map_cons, List.map_cons, hπ, ih]

/-- Replace every stored credential hash (the stored secret material). -/
def mapHash (f : String → String) (db : DB) : DB :=
  { db with credentials := db.credentials.map (fun c =>
      { c with credential_hash := f c.credential_hash }) }

/-- C8: the stored-credential reads are hash-free — the list-by-owner
projection is unchanged under any rewrite of every stored hash, and the
row returned by `createCredential` is the same whatever hash value was
stored; only `findActiveByHash` consumes the hash. The projection type
itself (`CredentialRow`) structurally lacks hash and plaintext fields. -/
theorem credential_reads_hash_free (db : DB) (f : String → String)
    (userId : Nat) (ctype : Option String) (now : Nat)
    (a : CreateCredentialArgs) (h1 h2 : String) :
    (findCredentialsByUserId (mapHash f db) userId ctype =
       findCredentialsByUserId db userId ctype) ∧
    ((createCredential db now { a with credentialHash := h1 }).1 =
       (createCredential db now { a with credentialHash := h2 }).1) := by
  constructor
  · unfold findCredentialsByUserId mapHash
    dsimp only
    congr 1
    exact filter_map_comm_of_invariant
      (fun c => { c with credential_hash := f c.credential_hash })
      (fun c => c.user_id == userId &&
        (match ctype with
         | none => true
         | some t => c.credential_type == t))
      projCred (fun _ => rfl) (fun _ => rfl) db.credentials
  · rfl

/-- C9: verifying a plaintext against its own hash succeeds, and
verifying any other plaintext against that hash fails (the idealized
injective-digest model makes the spec's "overwhelming probability"
certain). -/
theorem password_verify_round_trip :
    (∀ salt plaintext,
       verifyPassword plaintext (hashPassword salt plaintext) = true) ∧
    (∀ salt p1 p2, p1 ≠ p2 →
       verifyPassword p2 (hashPassword salt p1) = false) := by
  constructor
  · intro salt p
    simp [verifyPassword, hashPassword, bcryptDigest]
  · intro salt p1 p2 hne
    simp only [verifyPassword, hashPassword, bcryptDigest, beq_eq_false_iff_ne,
      ne_eq, BcryptHash.mk.injEq]
    intro h
    exact hne h.2.2.symm

/-- Witness for `password_verify_round_trip` at distinct plaintexts. -/
theorem password_verify_round_trip_witness :
    verifyPassword "Abcdefg1!" (hashPassword 3 "Abcdefg1!") = true ∧
    verifyPassword "Zbcdefg1!" (hashPassword 3 "Abcdefg1!") = false := by
  exact ⟨password_verify_round_trip.1 3 "Abcdefg1!",
    password_verify_round_trip.2 3 "Abcdefg1!" "Zbcdefg1!" (by decide)⟩

end PBXScribe
